import Mathlib

/-!
A shallow embedding of the scroll-driven image sequence player implemented in
`docs/js/sequence-player.js`, together with proofs about its frame addressing,
frame cache, window prefetch, scroll-to-frame mapping and draw fallback.

Modelling conventions:
* JS numbers that take part in real (float) arithmetic — scroll offsets,
  section heights, progress values — are modelled as rationals (`ℚ`);
  `Math.floor` becomes `Int.floor`.
* Integer quantities (frame indices, years, counters) are modelled as `Nat`
  or `Int`.
* A decoded image (`HTMLImageElement`) is modelled as an opaque handle `Img`.
* The DOM is modelled by its observable effects: a list of `Action`s emitted
  by the scroll handler and a list of `CanvasOp`s emitted by `drawFrame`.
  The blit geometry (letterbox rectangle, `setupCanvas`) is independent of
  every claim treated here and is not part of the canvas-op payload.
* Asynchronous image loading is split into its synchronous prefix
  (`loadFrame`, which inspects and updates the cache and in-flight set and
  possibly issues a fetch) and its completion (`loadComplete`, the
  `onload`/`onerror` callback).  All functions are total: no code path
  raises.
* The player is assumed constructed against an existing section/canvas
  (the constructor bails out before any state is created otherwise), with
  the year display elements present when the year indicator is enabled.
-/

namespace SeqPlayer

/-- A decoded image handle (`HTMLImageElement`), opaque to the player. -/
abbrev Img := Nat

/-- Immutable player configuration, read from the section `dataset` by the
constructor (`sequence-player.js` lines 139-148). -/
structure Player where
  sequenceName : String
  startFrame : Nat
  endFrame : Nat
  pattern : String
  padding : Nat
  framesPerYear : Nat
  startYear : Int
deriving DecidableEq

/-- `this.totalFrames = this.endFrame - this.startFrame + 1` (line 142). -/
def totalFrames (p : Player) : Nat := p.endFrame + 1 - p.startFrame

/-- `this.hasYearIndicator = this.framesPerYear > 0` (line 148). -/
def hasYearIndicator (p : Player) : Bool := decide (0 < p.framesPerYear)

/-- JS `String.prototype.padStart`: left-pads to `targetLength` with `c`;
a string that is already long enough is returned unchanged (no truncation). -/
def padStart (s : String) (targetLength : Nat) (c : Char) : String :=
  if s.length < targetLength then
    String.mk (List.replicate (targetLength - s.length) c) ++ s
  else s

/-- Replace the leftmost occurrence of `pat` in a character list by `repl`
(the empty pattern matches at the start, as in JS `String.indexOf`). -/
def listReplaceFirst (pat repl : List Char) : List Char → List Char
  | [] => if pat <+: ([] : List Char) then repl else []
  | c :: rest =>
    if pat <+: (c :: rest) then repl ++ (c :: rest).drop pat.length
    else c :: listReplaceFirst pat repl rest

/-- JS `String.prototype.replace` with a plain-string pattern: replaces the
first occurrence of `pat` only.  (The source always calls it with the
non-empty literal pattern `"{frame}"`.) -/
def replaceFirst (s pat repl : String) : String :=
  String.mk (listReplaceFirst pat.data repl.data s.data)

/-- `getFrameSrc` (lines 182-186): zero-pad `startFrame + frameIndex` to
`padding` digits, substitute it for the placeholder in the name pattern and
prefix the sequence name.  A pure function of the descriptor and the index. -/
def getFrameSrc (p : Player) (frameIndex : Nat) : String :=
  let frameNum := padStart (Nat.repr (p.startFrame + frameIndex)) p.padding '0'
  let filename := replaceFirst p.pattern "{frame}" frameNum
  p.sequenceName ++ "/" ++ filename

/-- The mutable frame cache: `this.images` (an array of length `totalFrames`,
slots `null` until a load succeeds) and `this.loadingFrames` (the in-flight
index set). -/
structure CacheState where
  images : List (Option Img)
  loadingFrames : Finset Nat
deriving DecidableEq

/-- Cache slot `i` as a `Nat` index: `none` for an empty slot and for an
out-of-bounds read (JS `undefined`), both falsy in the source's guards. -/
def slot (c : CacheState) (i : Nat) : Option Img :=
  c.images.getD i none

/-- `this.images[i]` for a possibly negative JS index. -/
def imgAt (c : CacheState) (i : Int) : Option Img :=
  if i < 0 then none else slot c i.toNat

/-- What the synchronous prefix of `loadFrame` (lines 188-196) did:
`outOfRange`/`alreadyLoading` model `return null`, `cached` models returning
the cached handle, and `fetchStarted src` models marking the index in-flight
and issuing the image fetch of `src`. -/
inductive LoadResult where
  | outOfRange
  | cached (img : Img)
  | alreadyLoading
  | fetchStarted (src : String)
deriving DecidableEq

/-- Synchronous prefix of `loadFrame(frameIndex)` (lines 188-196 and 208). -/
def loadFrame (p : Player) (c : CacheState) (i : Int) : CacheState × LoadResult :=
  if i < 0 ∨ (totalFrames p : Int) ≤ i then (c, .outOfRange)
  else
    match imgAt c i with
    | some img => (c, .cached img)
    | none =>
      if i.toNat ∈ c.loadingFrames then (c, .alreadyLoading)
      else ({ c with loadingFrames := insert i.toNat c.loadingFrames },
            .fetchStarted (getFrameSrc p i.toNat))

/-- Completion callback of a fetch of frame `i` (lines 199-207): `onload`
stores the decoded handle, `onerror` leaves the slot as it was; both delete
the in-flight marker and neither raises. -/
def loadComplete (c : CacheState) (i : Nat) (res : Option Img) : CacheState :=
  match res with
  | some img =>
      { images := c.images.set i (some img), loadingFrames := c.loadingFrames.erase i }
  | none => { c with loadingFrames := c.loadingFrames.erase i }

/-- `this.bufferSize = 15` (line 158). -/
def bufferSize : Nat := 15

/-- The integers from `lo` to `hi` inclusive (a JS `for (let i = lo; i <= hi; i++)`). -/
def intRange (lo hi : Int) : List Int :=
  (List.range (hi + 1 - lo).toNat).map (fun (k : Nat) => lo + (k : Int))

/-- `preloadBuffer(centerFrame)` (lines 212-221).  Returns the updated cache
together with the list of indices for which `loadFrame` was actually
invoked (the loop body's guard passed). -/
def preloadBuffer (p : Player) (c : CacheState) (center : Int) : CacheState × List Int :=
  let start := max 0 (center - (bufferSize : Int))
  let stop := min ((totalFrames p : Int) - 1) (center + (bufferSize : Int))
  (intRange start stop).foldl
    (fun acc i =>
      if imgAt acc.1 i = none ∧ i.toNat ∉ acc.1.loadingFrames then
        ((loadFrame p acc.1 i).1, acc.2 ++ [i])
      else acc)
    (c, [])

/-- An observable canvas write performed by `drawFrame` (lines 349-356): the
background clear and the image blit.  The blit rectangle is letterbox
geometry, irrelevant to the claims, so only the image drawn is recorded. -/
inductive CanvasOp where
  | fillRect
  | drawImage (img : Img)
deriving DecidableEq

/-- `drawFrame(index)` (lines 335-357).  `env` is the environment's answer to
the image fetch that `drawFrame` itself triggers when the slot is empty
(`none` = that load fails).  Returns the cache after the embedded load
attempt and the list of canvas writes performed. -/
def drawFrame (p : Player) (c : CacheState) (i : Int) (env : Option Img) :
    CacheState × List CanvasOp :=
  match imgAt c i with
  | some img => (c, [.fillRect, .drawImage img])
  | none =>
    let res := loadFrame p c i
    let afterLoad : CacheState × Option Img :=
      match res.2 with
      | .fetchStarted _ => (loadComplete res.1 i.toNat env, env)
      | .cached img => (res.1, some img)
      | _ => (res.1, none)
    let fallback : Option Img :=
      match afterLoad.2 with
      | some img => some img
      | none => imgAt afterLoad.1 0
    match fallback with
    | none => (afterLoad.1, [])
    | some img => (afterLoad.1, [.fillRect, .drawImage img])

/-- `progress = Math.max(0, Math.min(1, scrollStart / scrollRange))` (line 300). -/
def mapProgress (scrollStart scrollRange : ℚ) : ℚ :=
  max 0 (min 1 (scrollStart / scrollRange))

/-- `frameIndex = Math.floor(progress * (this.totalFrames - 1))` (line 301). -/
def mapFrameIndex (totalFrames : Nat) (scrollStart scrollRange : ℚ) : Int :=
  ⌊mapProgress scrollStart scrollRange * ((totalFrames : ℚ) - 1)⌋

/-- The layout readings consumed by one `onScroll` invocation (lines 271-276):
the section's bounding rectangle and the viewport height.  `sectionHeight`
is `this.section.offsetHeight`. -/
structure ScrollInput where
  rectTop : ℚ
  rectBottom : ℚ
  sectionHeight : ℚ
  viewportHeight : ℚ
deriving DecidableEq

/-- `scrollStart = -rect.top` (line 275). -/
def scrollStart (inp : ScrollInput) : ℚ := -inp.rectTop

/-- `scrollRange = sectionHeight - viewportHeight` (line 276). -/
def scrollRange (inp : ScrollInput) : ℚ := inp.sectionHeight - inp.viewportHeight

/-- `isInView = rect.top < viewportHeight && rect.bottom > 0` (line 278). -/
def isInView (inp : ScrollInput) : Bool :=
  decide (inp.rectTop < inp.viewportHeight ∧ 0 < inp.rectBottom)

/-- The player's mutable scroll-facing state: the frame cache, `currentFrame`
and `currentYear` (lines 152-157), plus the observable DOM state the player
writes: the year text (`#year-value`), the overlay's `visible` class and the
section's `in-view` class. -/
structure PState where
  cache : CacheState
  currentFrame : Int
  currentYear : Int
  displayedYear : Option Int
  overlayVisible : Bool
  inView : Bool
deriving DecidableEq

/-- A DOM-facing call made by `onScroll`, in program order: toggling the
`in-view` class, a `drawFrame(i)` call, a `preloadBuffer(i)` call, an
`updateYearIndicator(y)` call, an `updateOverlay(b)` call. -/
inductive Action where
  | inViewClass (b : Bool)
  | draw (i : Int)
  | preload (i : Int)
  | yearUpdate (y : Int)
  | overlay (visible : Bool)
deriving DecidableEq

/-- `year = startYear + Math.floor(frameIndex / framesPerYear)` followed by
`clampedYear = Math.min(2016, Math.max(2000, year))` (lines 309-310): the
clamp bounds are the literals 2000 and 2016, not `startYear`-relative. -/
def clampedYear (p : Player) (fi : Int) : Int :=
  min 2016 (max 2000 (p.startYear + ⌊(fi : ℚ) / (p.framesPerYear : ℚ)⌋))

/-- `onScroll()` (lines 268-319), for an initialized player.  Returns the
updated state and the DOM-facing calls in program order.  `drawFrame` and
`preloadBuffer` are recorded as actions (they are issued
fire-and-forget); their own effects are modelled by `drawFrame` and
`preloadBuffer` above. -/
def onScroll (p : Player) (st : PState) (inp : ScrollInput) : PState × List Action :=
  let s := scrollStart inp
  let r := scrollRange inp
  let iv := isInView inp
  let st0 := { st with inView := iv }
  let acts0 := [Action.inViewClass iv]
  if s < 0 then
    ({ st0 with overlayVisible := false }, acts0 ++ [Action.overlay false])
  else if r < s then
    let st1 := { st0 with overlayVisible := false }
    if hasYearIndicator p then
      ({ st1 with displayedYear := some 2016 },
        acts0 ++ [Action.draw ((totalFrames p : Int) - 1), Action.overlay false,
          Action.yearUpdate 2016])
    else
      (st1, acts0 ++ [Action.draw ((totalFrames p : Int) - 1), Action.overlay false])
  else
    let progress := mapProgress s r
    let frameIndex := mapFrameIndex (totalFrames p) s r
    let stepped : PState × List Action :=
      if frameIndex ≠ st0.currentFrame then
        let stA := { st0 with currentFrame := frameIndex }
        let base := [Action.draw frameIndex, Action.preload frameIndex]
        if hasYearIndicator p then
          let cy := clampedYear p frameIndex
          if cy ≠ stA.currentYear then
            ({ stA with currentYear := cy, displayedYear := some cy },
              base ++ [Action.yearUpdate cy])
          else (stA, base)
        else (stA, base)
      else (st0, [])
    let ov := decide (1/20 < progress ∧ progress < 19/20)
    ({ stepped.1 with overlayVisible := ov },
      acts0 ++ stepped.2 ++ [Action.overlay ov])

/-!
Fetch-trace semantics for the dedup invariant.  `pending` is the multiset of
frame indices whose image fetch has been issued but whose
`onload`/`onerror` callback has not yet fired — state of the browser's image
pipeline, not of the player.  Events are the player calling `loadFrame`
(from `init`, `preloadBuffer` or `drawFrame`) and the pipeline completing a
fetch (which can only happen for an outstanding fetch, and consumes it).
-/

/-- Player cache plus the multiset of outstanding (issued, uncompleted)
image fetches. -/
structure SysState where
  cache : CacheState
  pending : List Nat
deriving DecidableEq

/-- An event: a `loadFrame(i)` call, or the completion of the outstanding
fetch of frame `i` (`res = none` for `onerror`). -/
inductive Event where
  | ensure (i : Int)
  | complete (i : Nat) (res : Option Img)
deriving DecidableEq

/-- One event transition.  A `complete i` event is a no-op unless a fetch of
`i` is actually outstanding. -/
def step (p : Player) (s : SysState) (e : Event) : SysState :=
  match e with
  | .ensure i =>
    let res := loadFrame p s.cache i
    match res.2 with
    | .fetchStarted _ => { cache := res.1, pending := i.toNat :: s.pending }
    | _ => { cache := res.1, pending := s.pending }
  | .complete i res =>
    if i ∈ s.pending then
      { cache := loadComplete s.cache i res, pending := s.pending.erase i }
    else s

/-- Run a list of events. -/
def run (p : Player) (s : SysState) (es : List Event) : SysState :=
  es.foldl (step p) s

/-- Does processing event `e` in state `s` issue a fetch of frame `i`? -/
def startsFetch (p : Player) (s : SysState) (e : Event) (i : Nat) : Bool :=
  match e with
  | .ensure j =>
    decide (j = (i : Int)) &&
      (match (loadFrame p s.cache j).2 with
        | .fetchStarted _ => true
        | _ => false)
  | .complete _ _ => false

/-- How many fetches of frame `i` a list of events issues, threading the
state through. -/
def fetchesStarted (p : Player) (s : SysState) (es : List Event) (i : Nat) : Nat :=
  match es with
  | [] => 0
  | e :: rest =>
    (if startsFetch p s e i then 1 else 0) + fetchesStarted p (step p s e) rest i

/-- The state right after construction (lines 154-155): every slot `null`,
no in-flight index, no outstanding fetch. -/
def initState (p : Player) : SysState :=
  { cache := { images := List.replicate (totalFrames p) none, loadingFrames := ∅ },
    pending := [] }

/-- States reachable from the initial state by event transitions. -/
inductive Reachable (p : Player) : SysState → Prop where
  | init : Reachable p (initState p)
  | step {s : SysState} (e : Event) : Reachable p s → Reachable p (step p s e)

/-- The dedup invariant: outstanding fetches are exactly the in-flight
markers, one fetch per marked index. -/
def Inv (s : SysState) : Prop :=
  s.pending.Nodup ∧ ∀ i : Nat, i ∈ s.pending ↔ i ∈ s.cache.loadingFrames

/-! Concrete instances used to exhibit counterexamples and to instantiate
hypothesised theorems. -/

/-- A 103-frame sequence whose frame numbers cross 1000 while `padding = 3`. -/
def pC3 : Player :=
  { sequenceName := "seq", startFrame := 998, endFrame := 1100,
    pattern := "render{frame}.png", padding := 3, framesPerYear := 0, startYear := 2000 }

/-- A 101-frame sequence with a year indicator whose `startYear` is 2010,
not the default 2000. -/
def pC2 : Player :=
  { sequenceName := "seq", startFrame := 1, endFrame := 101,
    pattern := "render{frame}.png", padding := 3, framesPerYear := 1, startYear := 2010 }

/-- `pC2`'s state right after construction. -/
def stC2 : PState :=
  { cache := { images := List.replicate 101 none, loadingFrames := ∅ },
    currentFrame := 0, currentYear := 2010, displayedYear := some 2010,
    overlayVisible := false, inView := false }

/-- A scroll reading with `scrollStart = 10`, `scrollRange = 100`. -/
def inpC2 : ScrollInput :=
  { rectTop := -10, rectBottom := 100, sectionHeight := 110, viewportHeight := 10 }

/-- A 101-frame sequence without a year indicator. -/
def pC8 : Player :=
  { sequenceName := "seq", startFrame := 1, endFrame := 101,
    pattern := "render{frame}.png", padding := 3, framesPerYear := 0, startYear := 2000 }

/-- `pC8` state already displaying the final frame (index 100), whose image
is cached. -/
def stC8 : PState :=
  { cache := { images := (List.replicate 101 (none : Option Img)).set 100 (some 7),
               loadingFrames := ∅ },
    currentFrame := 100, currentYear := 2000, displayedYear := none,
    overlayVisible := false, inView := true }

/-- A scroll reading past the section's end: `scrollStart = 200`,
`scrollRange = 100`. -/
def inpC8 : ScrollInput :=
  { rectTop := -200, rectBottom := -90, sectionHeight := 110, viewportHeight := 10 }

/-- An in-range scroll reading mapping to frame 0: `scrollStart = 0`,
`scrollRange = 100`. -/
def inpW8 : ScrollInput :=
  { rectTop := 0, rectBottom := 110, sectionHeight := 110, viewportHeight := 10 }

/-- A scroll reading above the section: `scrollStart = -1`, `scrollRange = 100`. -/
def inpW9 : ScrollInput :=
  { rectTop := 1, rectBottom := 111, sectionHeight := 110, viewportHeight := 10 }

/-- `pC8` state currently displaying frame 0. -/
def stW8 : PState :=
  { cache := { images := List.replicate 101 none, loadingFrames := ∅ },
    currentFrame := 0, currentYear := 2000, displayedYear := none,
    overlayVisible := false, inView := true }

/-- A three-frame sequence. -/
def pW : Player :=
  { sequenceName := "seq", startFrame := 1, endFrame := 3,
    pattern := "render{frame}.png", padding := 3, framesPerYear := 0, startYear := 2000 }

/-- A cache for `pW` holding only frame 0's image. -/
def cW : CacheState :=
  { images := [some 5, none, none], loadingFrames := ∅ }

/-- Three `loadFrame(0)` calls with no intervening completion. -/
def esW : List Event := [Event.ensure 0, Event.ensure 0, Event.ensure 0]

end SeqPlayer
namespace SeqPlayer

/-- C1: on an in-range invocation (0 ≤ scrollStart ≤ scrollRange, scrollRange > 0)
the clamp is the identity, so `progress = scrollStart / scrollRange` and
`frameIndex = ⌊progress * (totalFrames - 1)⌋`; at `totalFrames = 480`,
`scrollRange = 4000`, `scrollStart = 2000` this gives progress `1/2` and
frame index 239. -/
theorem mapping_formula (T : Nat) (s r : ℚ) (hr : 0 < r) (h0 : 0 ≤ s) (h1 : s ≤ r) :
    mapProgress s r = max 0 (min 1 (s / r)) ∧
    mapProgress s r = s / r ∧
    mapFrameIndex T s r = ⌊s / r * ((T : ℚ) - 1)⌋ ∧
    mapProgress 2000 4000 = 1/2 ∧ mapFrameIndex 480 2000 4000 = 239 := by
  have hq0 : 0 ≤ s / r := div_nonneg h0 hr.le
  have hq1 : s / r ≤ 1 := (div_le_one hr).mpr h1
  have hp : mapProgress s r = s / r := by
    unfold mapProgress
    rw [min_eq_right hq1, max_eq_right hq0]
  refine ⟨rfl, hp, ?_, ?_, ?_⟩
  · unfold mapFrameIndex
    rw [hp]
  · norm_num [mapProgress]
  · norm_num [mapFrameIndex, mapProgress]

theorem mapping_formula_witness :
    mapProgress 2000 4000 = max 0 (min 1 ((2000 : ℚ) / 4000)) ∧
    mapProgress 2000 4000 = (2000 : ℚ) / 4000 ∧
    mapFrameIndex 480 2000 4000 = ⌊(2000 : ℚ) / 4000 * ((480 : ℚ) - 1)⌋ ∧
    mapProgress 2000 4000 = 1/2 ∧ mapFrameIndex 480 2000 4000 = 239 :=
  mapping_formula 480 2000 4000 (by norm_num) (by norm_num) (by norm_num)

/-- C7: the scroll-to-frame mapping is monotone on `[0, scrollRange]`. -/
theorem mapFrameIndex_monotone (T : Nat) (a b r : ℚ) (hT : 1 ≤ T)
    (h0 : 0 ≤ a) (hab : a < b) (hbr : b ≤ r) :
    mapFrameIndex T a r ≤ mapFrameIndex T b r := by
  have hr : 0 < r := lt_of_lt_of_le (lt_of_le_of_lt h0 hab) hbr
  have hdiv : a / r ≤ b / r := by gcongr
  have hprog : mapProgress a r ≤ mapProgress b r :=
    max_le_max le_rfl (min_le_min le_rfl hdiv)
  have hT1 : (0 : ℚ) ≤ (T : ℚ) - 1 := by
    have : (1 : ℚ) ≤ (T : ℚ) := by exact_mod_cast hT
    linarith
  exact Int.floor_le_floor (mul_le_mul_of_nonneg_right hprog hT1)

theorem mapFrameIndex_monotone_witness :
    (1 ≤ 480 ∧ (0:ℚ) ≤ 1000 ∧ (1000:ℚ) < 2000 ∧ (2000:ℚ) ≤ 4000) ∧
    mapFrameIndex 480 1000 4000 ≤ mapFrameIndex 480 2000 4000 :=
  ⟨by norm_num,
    mapFrameIndex_monotone 480 1000 2000 4000 (by norm_num) (by norm_num)
      (by norm_num) (by norm_num)⟩

/-- C10: `loadFrame` rejects an out-of-range index: it returns immediately
(`outOfRange` models `return null`), leaves the cache and the in-flight set
untouched, and starts no fetch. -/
theorem loadFrame_out_of_range (p : Player) (c : CacheState) (pend : List Nat) (i : Int)
    (h : i < 0 ∨ (totalFrames p : Int) ≤ i) :
    loadFrame p c i = (c, LoadResult.outOfRange) ∧
    (∀ j : Nat, startsFetch p ⟨c, pend⟩ (Event.ensure i) j = false) := by
  have hl : loadFrame p c i = (c, LoadResult.outOfRange) := by
    unfold loadFrame
    rw [if_pos h]
  refine ⟨hl, fun j => ?_⟩
  simp only [startsFetch]
  rw [hl]
  simp

theorem loadFrame_out_of_range_witness :
    loadFrame pW cW (-1) = (cW, LoadResult.outOfRange) ∧
    (∀ j : Nat, startsFetch pW ⟨cW, []⟩ (Event.ensure (-1)) j = false) :=
  loadFrame_out_of_range pW cW [] (-1) (by norm_num)

end SeqPlayer
namespace SeqPlayer

/-- C9: with `scrollStart ≤ 0` (and a positive scroll range) the mapping
yields progress 0 and frame index 0; and when `scrollStart < 0` the handler
only toggles the in-view class and hides the overlay: `currentFrame`, the
frame cache, the displayed year and the canvas (no draw action) are left
unchanged. -/
theorem onScroll_above_section (p : Player) (st : PState) (inp : ScrollInput)
    (hr : 0 < scrollRange inp) (hs : scrollStart inp ≤ 0) :
    mapProgress (scrollStart inp) (scrollRange inp) = 0 ∧
    mapFrameIndex (totalFrames p) (scrollStart inp) (scrollRange inp) = 0 ∧
    (scrollStart inp < 0 →
      onScroll p st inp =
        ({ st with inView := isInView inp, overlayVisible := false },
         [Action.inViewClass (isInView inp), Action.overlay false])) := by
  have hq : scrollStart inp / scrollRange inp ≤ 0 :=
    div_nonpos_of_nonpos_of_nonneg hs hr.le
  have hp : mapProgress (scrollStart inp) (scrollRange inp) = 0 := by
    unfold mapProgress
    rw [min_eq_right (hq.trans zero_le_one), max_eq_left hq]
  refine ⟨hp, ?_, ?_⟩
  · unfold mapFrameIndex
    rw [hp, zero_mul, Int.floor_zero]
  · intro hneg
    unfold onScroll
    rw [if_pos hneg]
    rfl

theorem onScroll_above_section_witness :
    mapProgress (scrollStart inpW9) (scrollRange inpW9) = 0 ∧
    mapFrameIndex (totalFrames pW) (scrollStart inpW9) (scrollRange inpW9) = 0 ∧
    onScroll pW stC8 inpW9 =
      ({ stC8 with inView := isInView inpW9, overlayVisible := false },
       [Action.inViewClass (isInView inpW9), Action.overlay false]) := by
  have h := onScroll_above_section pW stC8 inpW9
    (by norm_num [scrollRange, inpW9]) (by norm_num [scrollStart, inpW9])
  exact ⟨h.1, h.2.1, h.2.2 (by norm_num [scrollStart, inpW9])⟩

end SeqPlayer
namespace SeqPlayer

/-- C3 counterexample: with `padding = 3` and `startFrame + i = 1000`,
`padStart` does not truncate, so the substituted number has 4 digits, not
exactly `padding` digits. -/
theorem getFrameSrc_exact_padding_cx :
    getFrameSrc pC3 2 = "seq/render1000.png" ∧
    (padStart (Nat.repr (pC3.startFrame + 2)) pC3.padding '0').length = 4 ∧
    pC3.padding = 3 ∧ (2 : Nat) < totalFrames pC3 := by decide

/-- C3 (amended): `frameSource` is the pure function
`sequenceName ++ "/" ++ pattern` with the first placeholder occurrence
replaced by the decimal rendering of `startFrame + i` left-padded with `'0'`
to width `padding`; that rendering has exactly `padding` digits whenever
`startFrame + i < 10 ^ padding` (longer numbers are kept untruncated). -/
theorem getFrameSrc_padded (p : Player) (i : Nat) (hpad : 0 < p.padding)
    (hn : p.startFrame + i < 10 ^ p.padding) :
    getFrameSrc p i =
      p.sequenceName ++ "/" ++
        replaceFirst p.pattern "{frame}"
          (padStart (Nat.repr (p.startFrame + i)) p.padding '0') ∧
    (padStart (Nat.repr (p.startFrame + i)) p.padding '0').length = p.padding ∧
    padStart (Nat.repr (p.startFrame + i)) p.padding '0' =
      String.mk (List.replicate (p.padding - (Nat.repr (p.startFrame + i)).length) '0') ++
        Nat.repr (p.startFrame + i) := by
  have hlen : (Nat.repr (p.startFrame + i)).length ≤ p.padding :=
    Nat.repr_length _ _ hpad hn
  refine ⟨rfl, ?_, ?_⟩
  · unfold padStart
    by_cases h : (Nat.repr (p.startFrame + i)).length < p.padding
    · rw [if_pos h]
      simp only [String.length_append, String.length_mk, List.length_replicate]
      omega
    · rw [if_neg h]
      omega
  · unfold padStart
    by_cases h : (Nat.repr (p.startFrame + i)).length < p.padding
    · rw [if_pos h]
    · rw [if_neg h]
      have h0 : p.padding - (Nat.repr (p.startFrame + i)).length = 0 := by omega
      rw [h0]
      rfl

theorem getFrameSrc_padded_witness :
    getFrameSrc pW 1 =
      pW.sequenceName ++ "/" ++
        replaceFirst pW.pattern "{frame}"
          (padStart (Nat.repr (pW.startFrame + 1)) pW.padding '0') ∧
    (padStart (Nat.repr (pW.startFrame + 1)) pW.padding '0').length = pW.padding ∧
    padStart (Nat.repr (pW.startFrame + 1)) pW.padding '0' =
      String.mk (List.replicate (pW.padding - (Nat.repr (pW.startFrame + 1)).length) '0') ++
        Nat.repr (pW.startFrame + 1) :=
  getFrameSrc_padded pW 1 (by decide) (by decide)

end SeqPlayer
namespace SeqPlayer

theorem imgAt_natCast (c : CacheState) (i : Nat) : imgAt c (i : Int) = slot c i := by
  unfold imgAt
  rw [if_neg (by omega : ¬ (i : Int) < 0), Int.toNat_natCast]

theorem loadFrame_of_fresh (p : Player) (c : CacheState) (i : Nat)
    (h1 : slot c i = none) (h2 : i ∉ c.loadingFrames) (h3 : i < totalFrames p) :
    loadFrame p c (i : Int) =
      ({ c with loadingFrames := insert i c.loadingFrames },
       LoadResult.fetchStarted (getFrameSrc p i)) := by
  have hnr : ¬ ((i : Int) < 0 ∨ (totalFrames p : Int) ≤ (i : Int)) := by omega
  have himg : imgAt c (i : Int) = none := by rw [imgAt_natCast]; exact h1
  unfold loadFrame
  rw [if_neg hnr, himg]
  simp only [Int.toNat_natCast]
  rw [if_neg h2]

/-- C5: after a failed load of an uncached frame `i`, the slot is still
empty, the in-flight marker is cleared (the cache is exactly what it was),
and a subsequent `drawFrame(i)` whose own re-issued load also fails blits
frame 0's cached image when there is one and touches the canvas not at all
otherwise; every step returns normally. -/
theorem loadFrame_failure_fallback (p : Player) (c : CacheState) (i : Nat)
    (h1 : slot c i = none) (h2 : i ∉ c.loadingFrames) (h3 : i < totalFrames p) :
    (loadFrame p c (i : Int)).2 = LoadResult.fetchStarted (getFrameSrc p i) ∧
    loadComplete (loadFrame p c (i : Int)).1 i none = c ∧
    slot (loadComplete (loadFrame p c (i : Int)).1 i none) i = none ∧
    i ∉ (loadComplete (loadFrame p c (i : Int)).1 i none).loadingFrames ∧
    drawFrame p c (i : Int) none =
      (c, match slot c 0 with
          | some img0 => [CanvasOp.fillRect, CanvasOp.drawImage img0]
          | none => ([] : List CanvasOp)) := by
  have hlf := loadFrame_of_fresh p c i h1 h2 h3
  have hcomp : loadComplete (loadFrame p c (i : Int)).1 i none = c := by
    rw [hlf]
    unfold loadComplete
    simp only [Finset.erase_insert h2]
  have himg : imgAt c (i : Int) = none := by rw [imgAt_natCast]; exact h1
  refine ⟨by rw [hlf], hcomp, by rw [hcomp]; exact h1, by rw [hcomp]; exact h2, ?_⟩
  unfold drawFrame
  rw [himg, hlf]
  simp only [Int.toNat_natCast]
  have hc0 : loadComplete { c with loadingFrames := insert i c.loadingFrames } i none = c := by
    unfold loadComplete
    simp only [Finset.erase_insert h2]
  rw [hc0]
  have h0 : imgAt c (0 : Int) = slot c 0 := by
    have := imgAt_natCast c 0
    simpa using this
  rw [h0]
  cases slot c 0 <;> rfl

theorem loadFrame_failure_fallback_witness :
    (loadFrame pW cW (1 : Int)).2 = LoadResult.fetchStarted (getFrameSrc pW 1) ∧
    loadComplete (loadFrame pW cW (1 : Int)).1 1 none = cW ∧
    slot (loadComplete (loadFrame pW cW (1 : Int)).1 1 none) 1 = none ∧
    1 ∉ (loadComplete (loadFrame pW cW (1 : Int)).1 1 none).loadingFrames ∧
    drawFrame pW cW (1 : Int) none = (cW, [CanvasOp.fillRect, CanvasOp.drawImage 5]) :=
  loadFrame_failure_fallback pW cW 1 (by decide) (by decide) (by decide)

end SeqPlayer
namespace SeqPlayer

theorem intRange_bounds (lo hi : Int) : ∀ i ∈ intRange lo hi, lo ≤ i ∧ i ≤ hi := by
  intro i hi'
  unfold intRange at hi'
  obtain ⟨k, hk, rfl⟩ := List.mem_map.mp hi'
  have := List.mem_range.mp hk
  omega

theorem intRange_nodup (lo hi : Int) : (intRange lo hi).Nodup := by
  unfold intRange
  exact List.Nodup.map (fun a b h => by omega) (List.nodup_range _)

theorem preload_fold (p : Player) (l : List Int) :
    ∀ (c : CacheState) (done : List Int),
      (∀ i ∈ l, 0 ≤ i ∧ i < (totalFrames p : Int)) → l.Nodup →
      (l.foldl
        (fun acc i =>
          if imgAt acc.1 i = none ∧ i.toNat ∉ acc.1.loadingFrames then
            ((loadFrame p acc.1 i).1, acc.2 ++ [i])
          else acc)
        (c, done)).2 =
      done ++ l.filter (fun i => decide (imgAt c i = none ∧ i.toNat ∉ c.loadingFrames)) := by
  induction l with
  | nil => intro c done _ _; simp
  | cons i rest ih =>
    intro c done hb hnd
    obtain ⟨hi0, hiT⟩ := hb i (List.mem_cons_self _ _)
    obtain ⟨n, rfl⟩ : ∃ n : Nat, i = (n : Int) := ⟨i.toNat, by omega⟩
    rw [List.foldl_cons, List.filter_cons]
    by_cases hg : imgAt c (n : Int) = none ∧ (n : Int).toNat ∉ c.loadingFrames
    · rw [if_pos hg]
      have hg' : slot c n = none ∧ n ∉ c.loadingFrames := by
        rwa [imgAt_natCast, Int.toNat_natCast] at hg
      have hfresh := loadFrame_of_fresh p c n hg'.1 hg'.2 (by omega)
      rw [hfresh]
      have hrest := ih ({ c with loadingFrames := insert n c.loadingFrames })
        (done ++ [(n : Int)])
        (fun j hj => hb j (List.mem_cons_of_mem _ hj)) hnd.of_cons
      rw [hrest]
      have hfc : rest.filter
            (fun j => decide (imgAt { c with loadingFrames := insert n c.loadingFrames } j = none ∧
              j.toNat ∉ ({ c with loadingFrames := insert n c.loadingFrames } : CacheState).loadingFrames)) =
          rest.filter (fun j => decide (imgAt c j = none ∧ j.toNat ∉ c.loadingFrames)) := by
        apply List.filter_congr
        intro j hj
        obtain ⟨hj0, _⟩ := hb j (List.mem_cons_of_mem _ hj)
        obtain ⟨m, rfl⟩ : ∃ m : Nat, j = (m : Int) := ⟨j.toNat, by omega⟩
        have hmn : m ≠ n := by
          intro h
          exact (List.nodup_cons.mp hnd).1 (h ▸ hj)
        apply decide_eq_decide.mpr
        rw [imgAt_natCast, imgAt_natCast]
        simp [slot, Int.toNat_natCast, Finset.mem_insert, hmn]
      rw [hfc, if_pos (by exact decide_eq_true hg)]
      simp
    · rw [if_neg hg]
      rw [ih c done (fun j hj => hb j (List.mem_cons_of_mem _ hj)) hnd.of_cons]
      rw [if_neg (by simpa using hg)]

/-- C6: `preloadBuffer(center)` invokes `loadFrame` exactly on the indices of
the window `[max 0 (center - 15), min (totalFrames - 1) (center + 15)]`
(with `bufferSize = 15`) whose slot is empty and which are not in-flight,
and on no other index. -/
theorem preloadBuffer_requests (p : Player) (c : CacheState) (center : Int) :
    bufferSize = 15 ∧
    (preloadBuffer p c center).2 =
      (intRange (max 0 (center - (bufferSize : Int)))
          (min ((totalFrames p : Int) - 1) (center + (bufferSize : Int)))).filter
        (fun i => decide (imgAt c i = none ∧ i.toNat ∉ c.loadingFrames)) := by
  refine ⟨rfl, ?_⟩
  unfold preloadBuffer
  have hb : ∀ i ∈ intRange (max 0 (center - (bufferSize : Int)))
      (min ((totalFrames p : Int) - 1) (center + (bufferSize : Int))),
      0 ≤ i ∧ i < (totalFrames p : Int) := by
    intro i hi
    have h := intRange_bounds _ _ i hi
    omega
  rw [preload_fold p _ c [] hb (intRange_nodup _ _)]
  simp

end SeqPlayer
namespace SeqPlayer

theorem loadFrame_cases (p : Player) (c : CacheState) (i : Int) :
    (loadFrame p c i =
        ({ c with loadingFrames := insert i.toNat c.loadingFrames },
         LoadResult.fetchStarted (getFrameSrc p i.toNat)) ∧
      0 ≤ i ∧ i < (totalFrames p : Int) ∧ imgAt c i = none ∧ i.toNat ∉ c.loadingFrames)
    ∨ ((loadFrame p c i).1 = c ∧
       (∀ src, (loadFrame p c i).2 ≠ LoadResult.fetchStarted src) ∧
       ¬(0 ≤ i ∧ i < (totalFrames p : Int) ∧ imgAt c i = none ∧
          i.toNat ∉ c.loadingFrames)) := by
  by_cases hr : i < 0 ∨ (totalFrames p : Int) ≤ i
  · right
    have hl : loadFrame p c i = (c, LoadResult.outOfRange) := by
      unfold loadFrame
      rw [if_pos hr]
    rw [hl]
    refine ⟨rfl, by simp, ?_⟩
    rintro ⟨h1, h2, _⟩
    omega
  · obtain him | ⟨img, him⟩ := (imgAt c i).eq_none_or_eq_some
    · by_cases hld : i.toNat ∈ c.loadingFrames
      · right
        have hl : loadFrame p c i = (c, LoadResult.alreadyLoading) := by
          unfold loadFrame
          rw [if_neg hr]
          simp only [him, if_pos hld]
        rw [hl]
        refine ⟨rfl, by simp, ?_⟩
        rintro ⟨_, _, _, h4⟩
        exact h4 hld
      · left
        have hl : loadFrame p c i =
            ({ c with loadingFrames := insert i.toNat c.loadingFrames },
             LoadResult.fetchStarted (getFrameSrc p i.toNat)) := by
          unfold loadFrame
          rw [if_neg hr]
          simp only [him, if_neg hld]
        exact ⟨hl, by omega, by omega, him, hld⟩
    · right
      have hl : loadFrame p c i = (c, LoadResult.cached img) := by
        unfold loadFrame
        rw [if_neg hr]
        simp only [him]
      rw [hl]
      refine ⟨rfl, by simp, ?_⟩
      rintro ⟨_, _, h3, _⟩
      rw [him] at h3
      cases h3

theorem step_ensure_fetch (p : Player) (s : SysState) (j : Int)
    (h : 0 ≤ j ∧ j < (totalFrames p : Int) ∧ imgAt s.cache j = none ∧
      j.toNat ∉ s.cache.loadingFrames) :
    step p s (Event.ensure j) =
      { cache := { s.cache with loadingFrames := insert j.toNat s.cache.loadingFrames },
        pending := j.toNat :: s.pending } := by
  rcases loadFrame_cases p s.cache j with ⟨heq, _⟩ | ⟨_, _, hn⟩
  · simp only [step, heq]
  · exact absurd h hn

theorem step_ensure_no_fetch (p : Player) (s : SysState) (j : Int)
    (h : ¬(0 ≤ j ∧ j < (totalFrames p : Int) ∧ imgAt s.cache j = none ∧
      j.toNat ∉ s.cache.loadingFrames)) :
    step p s (Event.ensure j) = s := by
  rcases loadFrame_cases p s.cache j with ⟨_, hcond⟩ | ⟨hfst, hne, _⟩
  · exact absurd hcond h
  · simp only [step]
    rcases hres : (loadFrame p s.cache j).2 with _ | img | _ | src
    · rw [hfst]
    · rw [hfst]
    · rw [hfst]
    · exact absurd hres (hne src)

theorem step_complete (p : Player) (s : SysState) (k : Nat) (res : Option Img) :
    step p s (Event.complete k res) =
      (if k ∈ s.pending then
        { cache := loadComplete s.cache k res, pending := s.pending.erase k }
      else s) := by
  simp only [step]

theorem loadComplete_loading (c : CacheState) (k : Nat) (res : Option Img) :
    (loadComplete c k res).loadingFrames = c.loadingFrames.erase k := by
  cases res <;> rfl

theorem slot_loadComplete_ne (c : CacheState) (k i : Nat) (res : Option Img)
    (h : k ≠ i) : slot (loadComplete c k res) i = slot c i := by
  cases res with
  | none => rfl
  | some img =>
    unfold loadComplete slot
    simp only [List.getD_eq_getElem?_getD]
    rw [List.getElem?_set_ne h]

theorem inv_step (p : Player) {s : SysState} (e : Event) (h : Inv s) :
    Inv (step p s e) := by
  obtain ⟨hnd, hmem⟩ := h
  cases e with
  | ensure j =>
    by_cases hcond : 0 ≤ j ∧ j < (totalFrames p : Int) ∧ imgAt s.cache j = none ∧
        j.toNat ∉ s.cache.loadingFrames
    · rw [step_ensure_fetch p s j hcond]
      refine ⟨List.nodup_cons.mpr ⟨fun hm => hcond.2.2.2 ((hmem _).mp hm), hnd⟩, ?_⟩
      intro m
      simp only [List.mem_cons, Finset.mem_insert, hmem m]
    · rw [step_ensure_no_fetch p s j hcond]
      exact ⟨hnd, hmem⟩
  | complete k res =>
    rw [step_complete]
    by_cases hk : k ∈ s.pending
    · rw [if_pos hk]
      refine ⟨hnd.erase _, ?_⟩
      intro m
      rw [loadComplete_loading]
      rw [hnd.mem_erase_iff, Finset.mem_erase, hmem m]
    · rw [if_neg hk]
      exact ⟨hnd, hmem⟩

theorem inv_reachable (p : Player) {s : SysState} (h : Reachable p s) : Inv s := by
  induction h with
  | init =>
    refine ⟨List.nodup_nil, ?_⟩
    intro m
    simp [initState]
  | step e _ ih => exact inv_step p e ih

theorem reachable_run (p : Player) (es : List Event) :
    ∀ {s : SysState}, Reachable p s → Reachable p (run p s es) := by
  induction es with
  | nil => intro s h; exact h
  | cons e rest ih => intro s h; exact ih (Reachable.step e h)

end SeqPlayer
namespace SeqPlayer

theorem fetchesStarted_char (p : Player) (i : Nat) :
    ∀ (es : List Event) (s : SysState), Inv s →
      (∀ res : Option Img, Event.complete i res ∉ es) →
      fetchesStarted p s es i =
        (if slot s.cache i = none ∧ i ∉ s.cache.loadingFrames ∧ i < totalFrames p ∧
             Event.ensure (i : Int) ∈ es then 1 else 0) := by
  intro es
  induction es with
  | nil =>
    intro s _ _
    simp [fetchesStarted]
  | cons e rest ih =>
    intro s hinv hnc
    have hnc' : ∀ res : Option Img, Event.complete i res ∉ rest := fun res h =>
      hnc res (List.mem_cons_of_mem _ h)
    have hinv' : Inv (step p s e) := inv_step p e hinv
    cases e with
    | ensure j =>
      by_cases hj : j = (i : Int)
      · subst hj
        by_cases hstate : slot s.cache i = none ∧ i ∉ s.cache.loadingFrames ∧
            i < totalFrames p
        · have hcond : 0 ≤ ((i : Nat) : Int) ∧ ((i : Nat) : Int) < (totalFrames p : Int) ∧
              imgAt s.cache ((i : Nat) : Int) = none ∧
              ((i : Nat) : Int).toNat ∉ s.cache.loadingFrames := by
            refine ⟨by omega, by exact_mod_cast hstate.2.2, ?_, ?_⟩
            · rw [imgAt_natCast]; exact hstate.1
            · rw [Int.toNat_natCast]; exact hstate.2.1
          rcases loadFrame_cases p s.cache ((i : Nat) : Int) with ⟨heq, _⟩ | ⟨_, _, hn⟩
          · have hsf : startsFetch p s (Event.ensure ((i : Nat) : Int)) i = true := by
              simp [startsFetch, heq]
            have hstep := step_ensure_fetch p s ((i : Nat) : Int) hcond
            simp only [Int.toNat_natCast] at hstep
            simp only [fetchesStarted, hsf, if_true]
            rw [hstep, ih _ (hstep ▸ hinv') hnc']
            rw [if_neg (fun h => h.2.1 (Finset.mem_insert_self _ _))]
            rw [if_pos ⟨hstate.1, hstate.2.1, hstate.2.2, List.mem_cons_self _ _⟩]
          · exact absurd hcond hn
        · have hcond : ¬(0 ≤ ((i : Nat) : Int) ∧ ((i : Nat) : Int) < (totalFrames p : Int) ∧
              imgAt s.cache ((i : Nat) : Int) = none ∧
              ((i : Nat) : Int).toNat ∉ s.cache.loadingFrames) := by
            rintro ⟨_, h2, h3, h4⟩
            apply hstate
            refine ⟨by rwa [imgAt_natCast] at h3, by rwa [Int.toNat_natCast] at h4,
              by exact_mod_cast h2⟩
          have hstep := step_ensure_no_fetch p s ((i : Nat) : Int) hcond
          have hsf : startsFetch p s (Event.ensure ((i : Nat) : Int)) i = false := by
            rcases loadFrame_cases p s.cache ((i : Nat) : Int) with ⟨_, hc⟩ | ⟨_, hne2, _⟩
            · exact absurd hc hcond
            · rcases hres : (loadFrame p s.cache ((i : Nat) : Int)).2 with _ | img | _ | src
              · simp [startsFetch, hres]
              · simp [startsFetch, hres]
              · simp [startsFetch, hres]
              · exact absurd hres (hne2 src)
          simp only [fetchesStarted, hsf, Bool.false_eq_true, if_false, Nat.zero_add]
          rw [hstep, ih s hinv hnc']
          have h1 : ¬(slot s.cache i = none ∧ i ∉ s.cache.loadingFrames ∧
              i < totalFrames p ∧ Event.ensure ((i : Nat) : Int) ∈ rest) :=
            fun h => hstate ⟨h.1, h.2.1, h.2.2.1⟩
          have h2 : ¬(slot s.cache i = none ∧ i ∉ s.cache.loadingFrames ∧
              i < totalFrames p ∧
              Event.ensure ((i : Nat) : Int) ∈ Event.ensure ((i : Nat) : Int) :: rest) :=
            fun h => hstate ⟨h.1, h.2.1, h.2.2.1⟩
          rw [if_neg h1, if_neg h2]
      · have hsf : startsFetch p s (Event.ensure j) i = false := by
          simp [startsFetch, hj]
        simp only [fetchesStarted, hsf, Bool.false_eq_true, if_false, Nat.zero_add]
        rw [ih _ hinv' hnc']
        have hpres : slot (step p s (Event.ensure j)).cache i = slot s.cache i ∧
            (i ∈ (step p s (Event.ensure j)).cache.loadingFrames ↔
              i ∈ s.cache.loadingFrames) := by
          by_cases hcond : 0 ≤ j ∧ j < (totalFrames p : Int) ∧ imgAt s.cache j = none ∧
              j.toNat ∉ s.cache.loadingFrames
          · rw [step_ensure_fetch p s j hcond]
            have hji : j.toNat ≠ i := by omega
            refine ⟨rfl, ?_⟩
            simp [Finset.mem_insert, Ne.symm hji]
          · rw [step_ensure_no_fetch p s j hcond]
            exact ⟨rfl, Iff.rfl⟩
        have hmemiff : (Event.ensure ((i : Nat) : Int) ∈ Event.ensure j :: rest) ↔
            Event.ensure ((i : Nat) : Int) ∈ rest := by
          simp [List.mem_cons, Ne.symm hj]
        exact if_congr (and_congr (by rw [hpres.1]) (and_congr (not_congr hpres.2)
          (and_congr Iff.rfl hmemiff.symm))) rfl rfl
    | complete k res =>
      have hki : k ≠ i := by
        intro hk
        exact hnc res (by rw [hk]; exact List.mem_cons_self _ _)
      have hsf : startsFetch p s (Event.complete k res) i = false := rfl
      simp only [fetchesStarted, hsf, Bool.false_eq_true, if_false, Nat.zero_add]
      rw [ih _ hinv' hnc']
      have hpres : slot (step p s (Event.complete k res)).cache i = slot s.cache i ∧
          (i ∈ (step p s (Event.complete k res)).cache.loadingFrames ↔
            i ∈ s.cache.loadingFrames) := by
        rw [step_complete]
        by_cases hk : k ∈ s.pending
        · rw [if_pos hk]
          refine ⟨slot_loadComplete_ne s.cache k i res hki, ?_⟩
          rw [loadComplete_loading, Finset.mem_erase]
          constructor
          · rintro ⟨_, h⟩; exact h
          · intro h; exact ⟨Ne.symm hki, h⟩
        · rw [if_neg hk]
          exact ⟨rfl, Iff.rfl⟩
      have hmemiff : (Event.ensure ((i : Nat) : Int) ∈ Event.complete k res :: rest) ↔
          Event.ensure ((i : Nat) : Int) ∈ rest := by
        simp [List.mem_cons]
      exact if_congr (and_congr (by rw [hpres.1]) (and_congr (not_congr hpres.2)
        (and_congr Iff.rfl hmemiff.symm))) rfl rfl

end SeqPlayer
namespace SeqPlayer

/-- C4: from any reachable state, as long as no completion for frame `i`
fires, at most one fetch of `i` is ever outstanding (the ghost `pending`
multiset never holds `i` twice), a burst of events adds at most one fetch of
`i` on top of an already outstanding one, a cached slot never triggers a
fetch, and a fresh slot with at least one `loadFrame(i)` call triggers
exactly one. -/
theorem loadFrame_dedup (p : Player) (s : SysState) (es : List Event) (i : Nat)
    (hreach : Reachable p s)
    (hnc : ∀ res : Option Img, Event.complete i res ∉ es) :
    (run p s es).pending.count i ≤ 1 ∧
    fetchesStarted p s es i + s.pending.count i ≤ 1 ∧
    (slot s.cache i ≠ none → fetchesStarted p s es i = 0) ∧
    (slot s.cache i = none → i ∉ s.cache.loadingFrames → i < totalFrames p →
      Event.ensure (i : Int) ∈ es → fetchesStarted p s es i = 1) := by
  have hinv := inv_reachable p hreach
  have hchar := fetchesStarted_char p i es s hinv hnc
  have hinvrun := inv_reachable p (reachable_run p es hreach)
  refine ⟨List.nodup_iff_count_le_one.mp hinvrun.1 i, ?_, ?_, ?_⟩
  · rw [hchar]
    by_cases hcond : slot s.cache i = none ∧ i ∉ s.cache.loadingFrames ∧
        i < totalFrames p ∧ Event.ensure (i : Int) ∈ es
    · rw [if_pos hcond]
      have hnp : i ∉ s.pending := fun hm => hcond.2.1 ((hinv.2 i).mp hm)
      rw [List.count_eq_zero.mpr hnp]
    · rw [if_neg hcond]
      simpa using List.nodup_iff_count_le_one.mp hinv.1 i
  · intro hne
    rw [hchar, if_neg]
    rintro ⟨h1, _⟩
    exact hne h1
  · intro h1 h2 h3 h4
    rw [hchar, if_pos ⟨h1, h2, h3, h4⟩]

theorem loadFrame_dedup_witness :
    (run pW (initState pW) esW).pending.count 0 ≤ 1 ∧
    fetchesStarted pW (initState pW) esW 0 + (initState pW).pending.count 0 ≤ 1 ∧
    fetchesStarted pW (initState pW) esW 0 = 1 := by
  have h := loadFrame_dedup pW (initState pW) esW 0 Reachable.init
    (by intro res; simp [esW])
  exact ⟨h.1, h.2.1, h.2.2.2 (by decide) (by decide) (by decide) (by decide)⟩

end SeqPlayer
namespace SeqPlayer

/-- C2 counterexample: the source clamps the year to the literals 2000/2016
(lines 295 and 310), not to `[startYear, startYear + 16]`.  With
`startYear = 2010`, `framesPerYear = 1` and mapped frame 10, the claim's
formula gives 2020 but the handler displays 2016. -/
theorem onScroll_year_cx :
    mapFrameIndex (totalFrames pC2) (scrollStart inpC2) (scrollRange inpC2) = 10 ∧
    (onScroll pC2 stC2 inpC2).1.displayedYear = some 2016 ∧
    min (pC2.startYear + 16) (max pC2.startYear
      (pC2.startYear + ⌊((10 : Int) : ℚ) / (pC2.framesPerYear : ℚ)⌋)) = 2020 ∧
    (2016 : Int) ≠ 2020 := by
  refine ⟨?_, ?_, ?_, by norm_num⟩
  · norm_num [mapFrameIndex, mapProgress, totalFrames, scrollStart, scrollRange, pC2, inpC2]
  · norm_num [onScroll, scrollStart, scrollRange, isInView, mapProgress, mapFrameIndex,
      totalFrames, hasYearIndicator, clampedYear, pC2, stC2, inpC2]
  · norm_num [pC2]

/-- C2 (amended): with the year indicator enabled, an in-range invocation
whose mapped frame differs from `currentFrame` displays
`clamp(startYear + floor(frameIndex / framesPerYear), 2000, 2016)` — the
clamp bounds are the hardcoded literals 2000 and 2016 — updating the display
only when that value differs from the year recorded at the last in-range
update (`currentYear`); an invocation with `scrollStart > scrollRange`
displays the literal 2016. -/
theorem onScroll_year_hardcoded (p : Player) (st : PState) (inp : ScrollInput)
    (hy : hasYearIndicator p = true) (h0 : 0 ≤ scrollStart inp) :
    (scrollStart inp ≤ scrollRange inp →
      mapFrameIndex (totalFrames p) (scrollStart inp) (scrollRange inp) ≠ st.currentFrame →
      (onScroll p st inp).1.displayedYear =
        (if clampedYear p (mapFrameIndex (totalFrames p) (scrollStart inp) (scrollRange inp))
            ≠ st.currentYear
         then some (clampedYear p
            (mapFrameIndex (totalFrames p) (scrollStart inp) (scrollRange inp)))
         else st.displayedYear) ∧
      (onScroll p st inp).1.currentYear =
        (if clampedYear p (mapFrameIndex (totalFrames p) (scrollStart inp) (scrollRange inp))
            ≠ st.currentYear
         then clampedYear p (mapFrameIndex (totalFrames p) (scrollStart inp) (scrollRange inp))
         else st.currentYear)) ∧
    (scrollRange inp < scrollStart inp →
      (onScroll p st inp).1.displayedYear = some 2016) := by
  have hns : ¬ (scrollStart inp < 0) := not_lt.mpr h0
  constructor
  · intro h1 hne
    have hnr : ¬ (scrollRange inp < scrollStart inp) := not_lt.mpr h1
    simp only [onScroll, hns, hnr, if_false, hy, if_true]
    rw [if_pos hne]
    by_cases hcy : clampedYear p (mapFrameIndex (totalFrames p) (scrollStart inp)
        (scrollRange inp)) ≠ st.currentYear
    · exact ⟨by simp [hcy], by simp [hcy]⟩
    · exact ⟨by simp [hcy], by simp [hcy]⟩
  · intro hover
    simp only [onScroll, hns, hover, if_false, if_true, hy]

end SeqPlayer
namespace SeqPlayer

theorem onScroll_year_hardcoded_witness :
    ((onScroll pC2 stC2 inpC2).1.displayedYear =
      (if clampedYear pC2 (mapFrameIndex (totalFrames pC2) (scrollStart inpC2)
            (scrollRange inpC2)) ≠ stC2.currentYear
       then some (clampedYear pC2 (mapFrameIndex (totalFrames pC2) (scrollStart inpC2)
            (scrollRange inpC2)))
       else stC2.displayedYear)) ∧
    (onScroll pC2 stC2 inpC8).1.displayedYear = some 2016 := by
  constructor
  · exact ((onScroll_year_hardcoded pC2 stC2 inpC2 (by decide)
      (by norm_num [scrollStart, inpC2])).1
      (by norm_num [scrollStart, scrollRange, inpC2])
      (by norm_num [mapFrameIndex, mapProgress, totalFrames, scrollStart, scrollRange,
        pC2, inpC2, stC2])).1
  · exact (onScroll_year_hardcoded pC2 stC2 inpC8 (by decide)
      (by norm_num [scrollStart, inpC8])).2
      (by norm_num [scrollStart, scrollRange, inpC8])

end SeqPlayer
namespace SeqPlayer

/-- C8 counterexample: with `currentFrame` already the final frame (mapped
frame for an overshot scroll position) and its image cached, an invocation
with `scrollStart > scrollRange` still issues `drawFrame(totalFrames - 1)`
(line 292 runs unconditionally), and that call writes the canvas. -/
theorem onScroll_redraw_cx :
    stC8.currentFrame = (totalFrames pC8 : Int) - 1 ∧
    (onScroll pC8 stC8 inpC8).2 =
      [Action.inViewClass false, Action.draw ((totalFrames pC8 : Int) - 1),
       Action.overlay false] ∧
    (drawFrame pC8 stC8.cache ((totalFrames pC8 : Int) - 1) none).2 =
      [CanvasOp.fillRect, CanvasOp.drawImage 7] := by
  refine ⟨by decide, ?_, by decide⟩
  norm_num [onScroll, scrollStart, scrollRange, isInView, hasYearIndicator,
    totalFrames, pC8, stC8, inpC8]

/-- C8 (amended): on an in-range invocation (`0 ≤ scrollStart ≤ scrollRange`)
whose mapped frame equals `currentFrame`, the handler issues no draw (and no
preload) action and leaves the cache and `currentFrame` untouched; only the
`scrollStart > scrollRange` branch redraws unconditionally. -/
theorem onScroll_redraw_only_on_change (p : Player) (st : PState) (inp : ScrollInput)
    (h0 : 0 ≤ scrollStart inp) (h1 : scrollStart inp ≤ scrollRange inp)
    (heq : mapFrameIndex (totalFrames p) (scrollStart inp) (scrollRange inp) =
      st.currentFrame) :
    (∀ i, Action.draw i ∉ (onScroll p st inp).2) ∧
    (∀ i, Action.preload i ∉ (onScroll p st inp).2) ∧
    (onScroll p st inp).1.cache = st.cache ∧
    (onScroll p st inp).1.currentFrame = st.currentFrame := by
  have hns : ¬ (scrollStart inp < 0) := not_lt.mpr h0
  have hnr : ¬ (scrollRange inp < scrollStart inp) := not_lt.mpr h1
  simp only [onScroll, hns, hnr, if_false]
  rw [if_neg (fun h => h heq)]
  refine ⟨?_, ?_, rfl, rfl⟩ <;> intro i <;> simp

theorem onScroll_redraw_only_on_change_witness :
    Action.draw 0 ∉ (onScroll pC8 stW8 inpW8).2 ∧
    (onScroll pC8 stW8 inpW8).1.cache = stW8.cache ∧
    (onScroll pC8 stW8 inpW8).1.currentFrame = stW8.currentFrame := by
  have h := onScroll_redraw_only_on_change pC8 stW8 inpW8
    (by norm_num [scrollStart, inpW8])
    (by norm_num [scrollStart, scrollRange, inpW8])
    (by norm_num [mapFrameIndex, mapProgress, totalFrames, scrollStart, scrollRange,
      pC8, inpW8, stW8])
  exact ⟨h.1 0, h.2.2.1, h.2.2.2⟩

end SeqPlayer
